import Mathlib

/-!
# Verification of the qwik-invoicing-app core

Shallow embedding of the invoicing application's data model, queries and
commands (`src/lib/db.ts` schema, `src/routes/index.tsx` loaders/actions),
with theorems settling the specification's claims about totals, atomicity,
validation and query shape.

Conventions of the embedding:
* SQLite REAL columns and JavaScript numbers are modelled as `Rat`
  (the claims are stated "floating-point tolerance aside").
* A table is a list of row structures, in insertion order; `INSERT` appends.
* `AUTOINCREMENT` primary keys are modelled by per-table counters in the
  store; `lastInsertRowid` is the counter value used by the insert.
* A throwing statement (`better-sqlite3` raising on a constraint violation)
  is modelled with `Except DbError`; `db.transaction` commits the final
  state on `.ok` and restores the pre-transaction store on `.error`.
-/

namespace Invoicing

/-- A row of the `customers` table (db.ts): id, name, phone (UNIQUE),
optional email and address. -/
structure CustomerRow where
  id : Nat
  name : String
  phone : String
  email : Option String
  address : Option String
deriving Repr, DecidableEq

/-- A row of the `products` table (db.ts): id, name, optional description,
price and tax rate. -/
structure ProductRow where
  id : Nat
  name : String
  descr : Option String
  price : Rat
  tax : Rat
deriving Repr, DecidableEq

/-- A row of the `invoices` table (db.ts): id, customerId (FK), createdAt
(ISO-8601 text), totalAmount. -/
structure InvoiceRow where
  id : Nat
  customerId : Nat
  createdAt : String
  totalAmount : Rat
deriving Repr, DecidableEq

/-- A row of the `invoice_items` table (db.ts): invoiceId (FK), productId
(FK), quantity, and the price/tax snapshots taken at sale time. (The row's
own AUTOINCREMENT id is never read by the application and is omitted.) -/
structure InvoiceItemRow where
  invoiceId : Nat
  productId : Nat
  quantity : Int
  priceAtSale : Rat
  taxAtSale : Rat
deriving Repr, DecidableEq

/-- The whole SQLite database: the four tables plus the AUTOINCREMENT
counters (SQLite starts ids at 1). -/
structure Store where
  customers : List CustomerRow
  products : List ProductRow
  invoices : List InvoiceRow
  invoiceItems : List InvoiceItemRow
  nextCustomerId : Nat
  nextProductId : Nat
  nextInvoiceId : Nat
deriving Repr, DecidableEq

/-- The `InvoiceItem` interface of index.tsx (`Product` plus `quantity`):
the client-side shape submitted as `itemsJSON` to the create-invoice
action. `id` is the product id. -/
structure InvoiceItem where
  id : Nat
  name : String
  descr : Option String
  price : Rat
  tax : Rat
  quantity : Int
deriving Repr, DecidableEq

/-! ## Total calculator (index.tsx) -/

/-- `const itemTotal = item.price * item.quantity`
(index.tsx, useCreateInvoiceAction line 53). -/
def itemTotal (item : InvoiceItem) : Rat := item.price * (item.quantity : Rat)

/-- `const taxAmount = itemTotal * (item.tax / 100)`
(index.tsx, useCreateInvoiceAction line 54). -/
def taxAmount (item : InvoiceItem) : Rat := itemTotal item * (item.tax / 100)

/-- The server-side grand total of `useCreateInvoiceAction` (index.tsx
lines 52-56): `items.reduce((acc, item) => acc + itemTotal + taxAmount, 0)`. -/
def totalAmountOf (items : List InvoiceItem) : Rat :=
  items.foldl (fun acc item => acc + itemTotal item + taxAmount item) 0

/-- Client-side subtotal of `InvoiceCreation` (index.tsx line 222):
`items.reduce((acc, item) => acc + item.price * item.quantity, 0)`. -/
def subtotalOf (items : List InvoiceItem) : Rat :=
  items.foldl (fun acc item => acc + item.price * (item.quantity : Rat)) 0

/-- Client-side tax total of `InvoiceCreation` (index.tsx line 223):
`items.reduce((acc, item) => acc + item.price * item.quantity * (item.tax / 100), 0)`. -/
def totalTaxOf (items : List InvoiceItem) : Rat :=
  items.foldl (fun acc item => acc + item.price * (item.quantity : Rat) * (item.tax / 100)) 0

/-- The client-side preview total displayed by `InvoiceCreation`
(index.tsx line 261): `subtotal + totalTax`. -/
def previewTotal (items : List InvoiceItem) : Rat := subtotalOf items + totalTaxOf items

/-! The spec-side formulas (spec §4.6), written with `List.sum` over maps,
to be compared with the folds the code performs. -/

/-- Modelled from the spec §4.6: `subtotal = Σ price*quantity`. -/
def specSubtotal (items : List InvoiceItem) : Rat :=
  (items.map (fun item => item.price * (item.quantity : Rat))).sum

/-- Modelled from the spec §4.6: `taxTotal = Σ price*quantity*tax/100`. -/
def specTaxTotal (items : List InvoiceItem) : Rat :=
  (items.map (fun item => item.price * (item.quantity : Rat) * (item.tax / 100))).sum

/-- Modelled from the spec §4.6: `grandTotal = subtotal + taxTotal`. -/
def specGrandTotal (items : List InvoiceItem) : Rat :=
  specSubtotal items + specTaxTotal items

/-! ### Fold/sum lemmas -/

theorem totalAmountOf_foldl_eq (items : List InvoiceItem) :
    ∀ acc : Rat,
      items.foldl (fun acc item => acc + itemTotal item + taxAmount item) acc
        = acc + specSubtotal items + specTaxTotal items := by
  induction items with
  | nil => intro acc; simp [specSubtotal, specTaxTotal]
  | cons item rest ih =>
    intro acc
    rw [List.foldl_cons, ih]
    simp only [specSubtotal, specTaxTotal, List.map_cons, List.sum_cons, itemTotal, taxAmount]
    ring

theorem subtotalOf_foldl_eq (items : List InvoiceItem) :
    ∀ acc : Rat,
      items.foldl (fun acc item => acc + item.price * (item.quantity : Rat)) acc
        = acc + specSubtotal items := by
  induction items with
  | nil => intro acc; simp [specSubtotal]
  | cons item rest ih =>
    intro acc
    rw [List.foldl_cons, ih]
    simp only [specSubtotal, List.map_cons, List.sum_cons]
    ring

theorem totalTaxOf_foldl_eq (items : List InvoiceItem) :
    ∀ acc : Rat,
      items.foldl (fun acc item => acc + item.price * (item.quantity : Rat) * (item.tax / 100)) acc
        = acc + specTaxTotal items := by
  induction items with
  | nil => intro acc; simp [specTaxTotal]
  | cons item rest ih =>
    intro acc
    rw [List.foldl_cons, ih]
    simp only [specTaxTotal, List.map_cons, List.sum_cons]
    ring

theorem totalAmountOf_eq_spec (items : List InvoiceItem) :
    totalAmountOf items = specSubtotal items + specTaxTotal items := by
  have h := totalAmountOf_foldl_eq items 0
  simpa [totalAmountOf] using h

theorem subtotalOf_eq_spec (items : List InvoiceItem) :
    subtotalOf items = specSubtotal items := by
  have h := subtotalOf_foldl_eq items 0
  simpa [subtotalOf] using h

theorem totalTaxOf_eq_spec (items : List InvoiceItem) :
    totalTaxOf items = specTaxTotal items := by
  have h := totalTaxOf_foldl_eq items 0
  simpa [totalTaxOf] using h

/-- C3: for every list of `{price, quantity, tax}` line items the total
calculator satisfies `subtotal = Σ price*quantity`,
`taxTotal = Σ price*quantity*tax/100`, `grandTotal = subtotal + taxTotal`,
and the server-side `totalAmount` computed at invoice creation equals
`subtotal + taxTotal` of the submitted items. -/
theorem total_calculator_meets_spec (items : List InvoiceItem) :
    subtotalOf items = specSubtotal items ∧
    totalTaxOf items = specTaxTotal items ∧
    previewTotal items = subtotalOf items + totalTaxOf items ∧
    totalAmountOf items = subtotalOf items + totalTaxOf items := by
  refine ⟨subtotalOf_eq_spec items, totalTaxOf_eq_spec items, rfl, ?_⟩
  rw [totalAmountOf_eq_spec, subtotalOf_eq_spec, totalTaxOf_eq_spec]

/-- C4: the client-side preview total (subtotal plus totalTax of
`InvoiceCreation`) equals the server-side `totalAmount` computed by
`useCreateInvoiceAction`'s per-item fold: the two embedded computations are
extensionally equal functions of the item list. -/
theorem preview_total_eq_stored_total (items : List InvoiceItem) :
    previewTotal items = totalAmountOf items := by
  rw [previewTotal, totalAmountOf_eq_spec, subtotalOf_eq_spec, totalTaxOf_eq_spec]

/-! ## Commands (index.tsx actions over the db.ts schema) -/

/-- A constraint violation raised by the storage layer (better-sqlite3
throws; `PRAGMA foreign_keys = ON` is set in db.ts). -/
inductive DbError where
  | uniqueViolation
  | foreignKeyViolation
deriving Repr, DecidableEq

/-- The structured value `useCreateInvoiceAction` returns to the caller:
`{ success: true }` or `{ success: false, error: "Failed to save invoice." }`. -/
structure ActionResult where
  success : Bool
  error : Option String
deriving Repr, DecidableEq

/-- Outcome of `useAddCustomerAction` as seen by the caller: the handler has
no try/catch, so it either completes or the storage exception escapes the
handler uncaught. -/
inductive AddCustomerOutcome where
  | completed
  | uncaughtFault (e : DbError)
deriving Repr, DecidableEq

/-- Models `INSERT INTO customers (name, phone, email, address)` (index.tsx
line 43): appends a row with the next id, or raises on the UNIQUE
constraint on `phone` (db.ts). -/
def insertCustomer (s : Store) (name phone : String) (email address : Option String) :
    Except DbError Store :=
  if s.customers.any (fun c => c.phone == phone) then .error .uniqueViolation
  else .ok { s with
    customers := s.customers ++
      [{ id := s.nextCustomerId, name := name, phone := phone, email := email,
         address := address }],
    nextCustomerId := s.nextCustomerId + 1 }

/-- Models `useAddCustomerAction` (index.tsx lines 42-44): runs the insert
with no try/catch, so a constraint violation escapes the handler as an
uncaught fault and the table is left as it was. -/
def addCustomerAction (s : Store) (name phone : String) (email address : Option String) :
    Store × AddCustomerOutcome :=
  match insertCustomer s name phone email address with
  | .ok s' => (s', .completed)
  | .error e => (s, .uncaughtFault e)

/-- Models `useAddProductAction` (index.tsx lines 46-48):
`INSERT INTO products (name, description, price, tax)`; there is no
uniqueness constraint, the insert always succeeds. -/
def addProductAction (s : Store) (name : String) (descr : Option String) (price tax : Rat) :
    Store :=
  { s with
    products := s.products ++
      [{ id := s.nextProductId, name := name, descr := descr, price := price, tax := tax }],
    nextProductId := s.nextProductId + 1 }

/-- Models `INSERT INTO invoices (customerId, createdAt, totalAmount)`
(index.tsx line 60): raises on the `customerId` foreign key, else appends
the header with id `nextInvoiceId` (the insert's `lastInsertRowid`). -/
def insertInvoice (s : Store) (customerId : Nat) (createdAt : String) (totalAmount : Rat) :
    Except DbError Store :=
  if s.customers.any (fun c => c.id == customerId) then
    .ok { s with
      invoices := s.invoices ++
        [{ id := s.nextInvoiceId, customerId := customerId, createdAt := createdAt,
           totalAmount := totalAmount }],
      nextInvoiceId := s.nextInvoiceId + 1 }
  else .error .foreignKeyViolation

/-- The `invoice_items` row written for one submitted item (index.tsx line
66): `itemStmt.run(invoiceId, item.id, item.quantity, item.price, item.tax)`. -/
def itemRowOf (invoiceId : Nat) (item : InvoiceItem) : InvoiceItemRow :=
  { invoiceId := invoiceId, productId := item.id, quantity := item.quantity,
    priceAtSale := item.price, taxAtSale := item.tax }

/-- Models `INSERT INTO invoice_items (invoiceId, productId, quantity,
priceAtSale, taxAtSale)` (index.tsx line 64): raises on either foreign key,
else appends the row. -/
def insertInvoiceItem (s : Store) (invoiceId : Nat) (item : InvoiceItem) :
    Except DbError Store :=
  if s.invoices.any (fun i => i.id == invoiceId) then
    if s.products.any (fun p => p.id == item.id) then
      .ok { s with invoiceItems := s.invoiceItems ++ [itemRowOf invoiceId item] }
    else .error .foreignKeyViolation
  else .error .foreignKeyViolation

/-- The `for (const item of items)` loop of the transaction body (index.tsx
lines 65-67): inserts the items in order, stopping at the first failure. -/
def insertItems (s : Store) (invoiceId : Nat) : List InvoiceItem → Except DbError Store
  | [] => .ok s
  | item :: rest =>
    match insertInvoiceItem s invoiceId item with
    | .ok s' => insertItems s' invoiceId rest
    | .error e => .error e

/-- The transaction body of `useCreateInvoiceAction` (index.tsx lines
59-68): insert the header with the computed total, then every item with the
header's `lastInsertRowid`. -/
def createInvoiceTxn (s : Store) (customerId : Nat) (createdAt : String)
    (items : List InvoiceItem) : Except DbError Store :=
  match insertInvoice s customerId createdAt (totalAmountOf items) with
  | .ok s' => insertItems s' s.nextInvoiceId items
  | .error e => .error e

/-- Models `useCreateInvoiceAction` (index.tsx lines 50-77): run the
transaction; on success return `{ success: true }` with the committed
store, on any failure roll the store back (better-sqlite3 rolls the
transaction back when its body throws) and return
`{ success: false, error: "Failed to save invoice." }`. -/
def createInvoiceAction (s : Store) (customerId : Nat) (createdAt : String)
    (items : List InvoiceItem) : Store × ActionResult :=
  match createInvoiceTxn s customerId createdAt items with
  | .ok s' => (s', { success := true, error := none })
  | .error _ => (s, { success := false, error := some "Failed to save invoice." })

/-- The zod validation of the create-invoice submission (index.tsx line
77): `itemsJSON: z.string().min(1)` — the only check on the submitted items
is that the raw JSON string is non-empty. -/
def itemsJSONValid (itemsJSON : String) : Bool := 1 ≤ itemsJSON.length

/-! ### Characterising the transaction -/

theorem insertItems_cases (invoiceId : Nat) :
    ∀ (items : List InvoiceItem) (s : Store),
      (∃ e, insertItems s invoiceId items = .error e) ∨
        insertItems s invoiceId items =
          .ok { s with invoiceItems := s.invoiceItems ++ items.map (itemRowOf invoiceId) }
  | [], s => by
    right
    simp [insertItems]
  | item :: rest, s => by
    by_cases hinv : s.invoices.any (fun i => i.id == invoiceId) = true
    · by_cases hp : s.products.any (fun p => p.id == item.id) = true
      · have step : insertItems s invoiceId (item :: rest)
            = insertItems { s with invoiceItems := s.invoiceItems ++ [itemRowOf invoiceId item] }
                invoiceId rest := by
          simp [insertItems, insertInvoiceItem, hinv, hp]
        rcases insertItems_cases invoiceId rest
            { s with invoiceItems := s.invoiceItems ++ [itemRowOf invoiceId item] } with h | h
        · left; rw [step]; exact h
        · right; rw [step, h]; simp
      · exact .inl ⟨.foreignKeyViolation, by simp [insertItems, insertInvoiceItem, hinv, hp]⟩
    · exact .inl ⟨.foreignKeyViolation, by simp [insertItems, insertInvoiceItem, hinv]⟩

/-- The committed store of a successful create-invoice transaction. -/
def committedStore (s : Store) (customerId : Nat) (createdAt : String)
    (items : List InvoiceItem) : Store :=
  { s with
    invoices := s.invoices ++
      [{ id := s.nextInvoiceId, customerId := customerId, createdAt := createdAt,
         totalAmount := totalAmountOf items }],
    invoiceItems := s.invoiceItems ++ items.map (itemRowOf s.nextInvoiceId),
    nextInvoiceId := s.nextInvoiceId + 1 }

theorem createInvoiceAction_cases (s : Store) (customerId : Nat) (createdAt : String)
    (items : List InvoiceItem) :
    createInvoiceAction s customerId createdAt items
        = (s, { success := false, error := some "Failed to save invoice." }) ∨
      createInvoiceAction s customerId createdAt items
        = (committedStore s customerId createdAt items,
           { success := true, error := none }) := by
  by_cases hc : s.customers.any (fun c => c.id == customerId) = true
  · have htxn : createInvoiceTxn s customerId createdAt items
        = insertItems
            { s with
              invoices := s.invoices ++
                [{ id := s.nextInvoiceId, customerId := customerId, createdAt := createdAt,
                   totalAmount := totalAmountOf items }],
              nextInvoiceId := s.nextInvoiceId + 1 }
            s.nextInvoiceId items := by
      simp [createInvoiceTxn, insertInvoice, hc]
    rcases insertItems_cases s.nextInvoiceId items
        { s with
          invoices := s.invoices ++
            [{ id := s.nextInvoiceId, customerId := customerId, createdAt := createdAt,
               totalAmount := totalAmountOf items }],
          nextInvoiceId := s.nextInvoiceId + 1 } with ⟨e, h⟩ | h
    · left
      simp [createInvoiceAction, htxn, h]
    · right
      simp [createInvoiceAction, htxn, h, committedStore]
  · left
    simp [createInvoiceAction, createInvoiceTxn, insertInvoice, hc]

/-- C1: invoice creation is atomic. For every create-invoice request
either the action fails and the store is exactly its pre-transaction state
(in particular, when a line-item insert fails partway no invoice row and no
invoice_item rows from the attempt remain), or it succeeds and the header
row together with every one of its invoice_items rows is persisted. -/
theorem createInvoice_atomic (s : Store) (customerId : Nat) (createdAt : String)
    (items : List InvoiceItem) :
    ((createInvoiceAction s customerId createdAt items).2.success = false ∧
      (createInvoiceAction s customerId createdAt items).1 = s) ∨
    ((createInvoiceAction s customerId createdAt items).2.success = true ∧
      (createInvoiceAction s customerId createdAt items).1.invoices
        = s.invoices ++
          [{ id := s.nextInvoiceId, customerId := customerId, createdAt := createdAt,
             totalAmount := totalAmountOf items }] ∧
      (createInvoiceAction s customerId createdAt items).1.invoiceItems
        = s.invoiceItems ++ items.map (itemRowOf s.nextInvoiceId) ∧
      (createInvoiceAction s customerId createdAt items).1.customers = s.customers ∧
      (createInvoiceAction s customerId createdAt items).1.products = s.products) := by
  rcases createInvoiceAction_cases s customerId createdAt items with h | h <;>
    rw [h] <;> simp [committedStore]

/-! ## The stored-totals invariant (C2) -/

/-- The amount a stored line item contributes to its invoice's total:
`quantity * priceAtSale * (1 + taxAtSale/100)`. -/
def lineItemAmount (row : InvoiceItemRow) : Rat :=
  (row.quantity : Rat) * row.priceAtSale * (1 + row.taxAtSale / 100)

/-- Sum of the stored line-item amounts of one invoice. -/
def invoiceItemsSum (s : Store) (invoiceId : Nat) : Rat :=
  ((s.invoiceItems.filter (fun row => row.invoiceId == invoiceId)).map lineItemAmount).sum

/-- Every stored invoice's `totalAmount` equals the sum over its stored
line items of `quantity * priceAtSale * (1 + taxAtSale/100)`. -/
def TotalsInvariant (s : Store) : Prop :=
  ∀ inv ∈ s.invoices, inv.totalAmount = invoiceItemsSum s inv.id

/-- Freshness of the AUTOINCREMENT counter: every stored invoice id and
every stored line item's `invoiceId` is below the next invoice id. -/
def StoreWF (s : Store) : Prop :=
  (∀ inv ∈ s.invoices, inv.id < s.nextInvoiceId) ∧
  (∀ row ∈ s.invoiceItems, row.invoiceId < s.nextInvoiceId)

/-- The commands reachable through the page's actions. -/
inductive Op where
  | addCustomer (name phone : String) (email address : Option String)
  | addProduct (name : String) (descr : Option String) (price tax : Rat)
  | createInvoice (customerId : Nat) (createdAt : String) (items : List InvoiceItem)

/-- The store after one command. -/
def applyOp (s : Store) : Op → Store
  | .addCustomer name phone email address => (addCustomerAction s name phone email address).1
  | .addProduct name descr price tax => addProductAction s name descr price tax
  | .createInvoice customerId createdAt items =>
      (createInvoiceAction s customerId createdAt items).1

theorem specSums_eq_lineItemSum (invoiceId : Nat) (items : List InvoiceItem) :
    specSubtotal items + specTaxTotal items
      = ((items.map (itemRowOf invoiceId)).map lineItemAmount).sum := by
  induction items with
  | nil => simp [specSubtotal, specTaxTotal]
  | cons item rest ih =>
    simp only [specSubtotal, specTaxTotal, List.map_cons, List.sum_cons,
      lineItemAmount, itemRowOf] at *
    linear_combination ih

theorem totalAmountOf_eq_lineItemSum (invoiceId : Nat) (items : List InvoiceItem) :
    totalAmountOf items = ((items.map (itemRowOf invoiceId)).map lineItemAmount).sum := by
  rw [totalAmountOf_eq_spec]
  exact specSums_eq_lineItemSum invoiceId items

theorem filter_mapRows_ne (items : List InvoiceItem) {n m : Nat} (h : ¬ n = m) :
    (items.map (itemRowOf n)).filter (fun row => row.invoiceId == m) = [] := by
  induction items with
  | nil => rfl
  | cons item rest ih =>
    simp only [List.map_cons, List.filter_cons, itemRowOf]
    simp [h, ih]

theorem filter_mapRows_self (items : List InvoiceItem) (n : Nat) :
    (items.map (itemRowOf n)).filter (fun row => row.invoiceId == n)
      = items.map (itemRowOf n) := by
  induction items with
  | nil => rfl
  | cons item rest ih =>
    simp only [List.map_cons, List.filter_cons, itemRowOf]
    simp [ih]

theorem invoiceItemsSum_committed_old (s : Store) (customerId : Nat) (createdAt : String)
    (items : List InvoiceItem) (m : Nat) (hm : ¬ s.nextInvoiceId = m) :
    invoiceItemsSum (committedStore s customerId createdAt items) m = invoiceItemsSum s m := by
  simp [invoiceItemsSum, committedStore, List.filter_append, filter_mapRows_ne items hm]

theorem invoiceItemsSum_committed_new (s : Store) (customerId : Nat) (createdAt : String)
    (items : List InvoiceItem)
    (hfresh : ∀ row ∈ s.invoiceItems, row.invoiceId < s.nextInvoiceId) :
    invoiceItemsSum (committedStore s customerId createdAt items) s.nextInvoiceId
      = totalAmountOf items := by
  have hold : s.invoiceItems.filter (fun row => row.invoiceId == s.nextInvoiceId) = [] := by
    refine List.filter_eq_nil_iff.2 fun row hrow => ?_
    simp [Nat.ne_of_lt (hfresh row hrow)]
  rw [invoiceItemsSum, totalAmountOf_eq_lineItemSum s.nextInvoiceId items]
  simp [committedStore, List.filter_append, hold, filter_mapRows_self]

theorem addCustomerAction_fields (s : Store) (name phone : String)
    (email address : Option String) :
    ((addCustomerAction s name phone email address).1.invoices = s.invoices) ∧
    ((addCustomerAction s name phone email address).1.invoiceItems = s.invoiceItems) ∧
    ((addCustomerAction s name phone email address).1.nextInvoiceId = s.nextInvoiceId) := by
  by_cases h : s.customers.any (fun c => c.phone == phone) = true <;>
    simp [addCustomerAction, insertCustomer, h]

theorem invariant_of_fields_eq (s s' : Store)
    (hrows : s'.invoices = s.invoices) (hitems : s'.invoiceItems = s.invoiceItems)
    (hnext : s'.nextInvoiceId = s.nextInvoiceId)
    (hwf : StoreWF s) (hinv : TotalsInvariant s) :
    StoreWF s' ∧ TotalsInvariant s' := by
  refine ⟨⟨?_, ?_⟩, ?_⟩
  · rw [hrows, hnext]; exact hwf.1
  · rw [hitems, hnext]; exact hwf.2
  · intro inv hmem
    rw [hrows] at hmem
    have hsum : invoiceItemsSum s' inv.id = invoiceItemsSum s inv.id := by
      rw [invoiceItemsSum, invoiceItemsSum, hitems]
    rw [hsum]
    exact hinv inv hmem

/-- C2: for every invoice in the store, the stored `totalAmount` equals the
sum over its stored line items of `quantity * priceAtSale *
(1 + taxAtSale/100)`. The equality is established at creation (the total is
computed from the same price/tax/quantity values persisted in the
invoice_items rows) and is preserved by every command of the page, given
the AUTOINCREMENT counter is fresh. -/
theorem totals_invariant_preserved (s : Store) (op : Op)
    (hwf : StoreWF s) (hinv : TotalsInvariant s) :
    StoreWF (applyOp s op) ∧ TotalsInvariant (applyOp s op) := by
  cases op with
  | addCustomer name phone email address =>
    obtain ⟨h1, h2, h3⟩ := addCustomerAction_fields s name phone email address
    exact invariant_of_fields_eq s _ h1 h2 h3 hwf hinv
  | addProduct name descr price tax =>
    exact invariant_of_fields_eq s _ rfl rfl rfl hwf hinv
  | createInvoice customerId createdAt items =>
    rcases createInvoiceAction_cases s customerId createdAt items with h | h
    · simp only [applyOp, h]
      exact ⟨hwf, hinv⟩
    · simp only [applyOp, h]
      refine ⟨⟨?_, ?_⟩, ?_⟩
      · intro inv hmem
        simp only [committedStore, List.mem_append, List.mem_singleton] at hmem
        rcases hmem with hmem | rfl
        · have := hwf.1 inv hmem
          simp only [committedStore]
          omega
        · simp [committedStore]
      · intro row hmem
        simp only [committedStore, List.mem_append] at hmem
        rcases hmem with hmem | hmem
        · have := hwf.2 row hmem
          simp only [committedStore]
          omega
        · obtain ⟨item, _, rfl⟩ := List.mem_map.1 hmem
          simp [committedStore, itemRowOf]
      · intro inv hmem
        simp only [committedStore, List.mem_append, List.mem_singleton] at hmem
        rcases hmem with hmem | rfl
        · have hlt := hwf.1 inv hmem
          rw [invoiceItemsSum_committed_old s customerId createdAt items inv.id
            (by omega)]
          exact hinv inv hmem
        · exact invoiceItemsSum_committed_new s customerId createdAt items hwf.2 |>.symm

/-! ### The success path of the transaction -/

theorem insertItems_ok (invoiceId : Nat) :
    ∀ (items : List InvoiceItem) (s : Store),
      s.invoices.any (fun i => i.id == invoiceId) = true →
      (∀ item ∈ items, s.products.any (fun p => p.id == item.id) = true) →
      insertItems s invoiceId items =
        .ok { s with invoiceItems := s.invoiceItems ++ items.map (itemRowOf invoiceId) }
  | [], s, _, _ => by simp [insertItems]
  | item :: rest, s, hinv, hp => by
    have hp1 := hp item (List.mem_cons_self ..)
    have step : insertItems s invoiceId (item :: rest)
        = insertItems { s with invoiceItems := s.invoiceItems ++ [itemRowOf invoiceId item] }
            invoiceId rest := by
      simp [insertItems, insertInvoiceItem, hinv, hp1]
    rw [step, insertItems_ok invoiceId rest
      { s with invoiceItems := s.invoiceItems ++ [itemRowOf invoiceId item] } hinv
      (fun it hit => hp it (List.mem_cons_of_mem _ hit))]
    simp

theorem createInvoiceAction_ok (s : Store) (customerId : Nat) (createdAt : String)
    (items : List InvoiceItem)
    (hc : s.customers.any (fun c => c.id == customerId) = true)
    (hitems : ∀ item ∈ items, s.products.any (fun p => p.id == item.id) = true) :
    createInvoiceAction s customerId createdAt items
      = (committedStore s customerId createdAt items,
         { success := true, error := none }) := by
  have hstep := insertItems_ok s.nextInvoiceId items
      { s with
        invoices := s.invoices ++
          [{ id := s.nextInvoiceId, customerId := customerId, createdAt := createdAt,
             totalAmount := totalAmountOf items }],
        nextInvoiceId := s.nextInvoiceId + 1 }
      (by simp) hitems
  simp [createInvoiceAction, createInvoiceTxn, insertInvoice, hc, hstep, committedStore]

/-! ### Concrete stores used by the closed instances below -/

/-- A small concrete store: one customer (phone "555"), one product. -/
def demoStore : Store :=
  { customers := [{ id := 1, name := "Ada", phone := "555", email := none, address := none }],
    products := [{ id := 1, name := "Widget", descr := none, price := 5, tax := 10 }],
    invoices := [], invoiceItems := [],
    nextCustomerId := 2, nextProductId := 2, nextInvoiceId := 1 }

/-- `demoStore` with a different value of the invoice AUTOINCREMENT
counter, as after six earlier (since deleted) invoices. -/
def demoStoreShift : Store := { demoStore with nextInvoiceId := 7 }

/-- A submitted line item matching `demoStore`'s product. -/
def demoItem : InvoiceItem :=
  { id := 1, name := "Widget", descr := none, price := 5, tax := 10, quantity := 2 }

/-- A submitted line item with a client-supplied negative price (the action
deserialises `itemsJSON` without validating the item fields). -/
def demoBadItem : InvoiceItem :=
  { id := 1, name := "Widget", descr := none, price := -100, tax := 0, quantity := 1 }

/-! ## C5: the stored total is computed, but not necessarily non-negative -/

/-- C5 counterexample: the create-invoice command accepts a client-supplied
item with price `-100` (the zod schema checks nothing beyond `itemsJSON`
being a non-empty string), succeeds, and persists an invoice row whose
`totalAmount` is `-100 < 0` — refuting `totalAmount >= 0` for every invoice
row reachable through the command interface. -/
theorem createInvoice_negative_total_cex :
    (createInvoiceAction demoStore 1 "2024-01-01" [demoBadItem]).2.success = true ∧
    ((createInvoiceAction demoStore 1 "2024-01-01" [demoBadItem]).1.invoices.map
        (fun inv => inv.totalAmount)) = [-100] ∧
    ((-100 : Rat) < 0) := by
  rw [createInvoiceAction_ok demoStore 1 "2024-01-01" [demoBadItem] (by decide) (by decide)]
  refine ⟨rfl, ?_, by norm_num⟩
  simp [committedStore, demoStore, totalAmountOf, itemTotal, taxAmount, demoBadItem]

/-- C5 (amended): the stored total is computed by the server from the
submitted items — the command takes no user-supplied total, and a persisted
invoice's total is either pre-existing or exactly `totalAmountOf items` —
but its non-negativity is not enforced by the code; it holds provided every
submitted item has non-negative price, quantity and tax (and every invoice
already stored has a non-negative total). -/
theorem createInvoice_total_computed_nonneg (s : Store) (customerId : Nat)
    (createdAt : String) (items : List InvoiceItem)
    (hitems : ∀ item ∈ items, 0 ≤ item.price ∧ 0 ≤ item.quantity ∧ 0 ≤ item.tax)
    (hold : ∀ inv ∈ s.invoices, 0 ≤ inv.totalAmount)
    (inv : InvoiceRow)
    (hmem : inv ∈ (createInvoiceAction s customerId createdAt items).1.invoices) :
    0 ≤ inv.totalAmount ∧ (inv ∈ s.invoices ∨ inv.totalAmount = totalAmountOf items) := by
  rcases createInvoiceAction_cases s customerId createdAt items with h | h
  · rw [h] at hmem
    exact ⟨hold inv hmem, .inl hmem⟩
  · rw [h] at hmem
    simp only [committedStore, List.mem_append, List.mem_singleton] at hmem
    rcases hmem with hmem | rfl
    · exact ⟨hold inv hmem, .inl hmem⟩
    · refine ⟨?_, .inr rfl⟩
      show (0 : Rat) ≤ totalAmountOf items
      rw [totalAmountOf_eq_spec]
      have h1 : 0 ≤ specSubtotal items := by
        refine List.sum_nonneg fun x hx => ?_
        obtain ⟨item, hitem, rfl⟩ := List.mem_map.1 hx
        obtain ⟨hp, hq, _⟩ := hitems item hitem
        exact mul_nonneg hp (by exact_mod_cast hq)
      have h2 : 0 ≤ specTaxTotal items := by
        refine List.sum_nonneg fun x hx => ?_
        obtain ⟨item, hitem, rfl⟩ := List.mem_map.1 hx
        obtain ⟨hp, hq, ht⟩ := hitems item hitem
        exact mul_nonneg (mul_nonneg hp (by exact_mod_cast hq))
          (div_nonneg ht (by norm_num))
      linarith

theorem createInvoice_total_computed_nonneg_witness :
    0 ≤ ({ id := 1, customerId := 1, createdAt := "2024", totalAmount := 0 } : InvoiceRow).totalAmount ∧
    (({ id := 1, customerId := 1, createdAt := "2024", totalAmount := 0 } : InvoiceRow)
        ∈ demoStore.invoices ∨
      ({ id := 1, customerId := 1, createdAt := "2024", totalAmount := 0 } : InvoiceRow).totalAmount
        = totalAmountOf []) :=
  createInvoice_total_computed_nonneg demoStore 1 "2024" []
    (fun item h => absurd h (List.not_mem_nil item))
    (fun inv h => absurd h (List.not_mem_nil inv))
    { id := 1, customerId := 1, createdAt := "2024", totalAmount := 0 }
    (by rw [createInvoiceAction_ok demoStore 1 "2024" [] (by decide)
          (fun item h => absurd h (List.not_mem_nil item))]
        exact List.mem_append_right _ (List.mem_singleton.2 rfl))

/-! ## C6: the command does not reject empty item lists or bad quantities -/

/-- C6 counterexample: the string `"[]"` (which parses to the empty item
list) passes the zod validation `z.string().min(1)`, and the action run
with the empty item list succeeds and inserts an invoice header — refuting
the claim that such a submission fails validation and inserts nothing. -/
theorem createInvoice_empty_accepted_cex :
    itemsJSONValid "[]" = true ∧
    (createInvoiceAction demoStore 1 "2024-01-01" []).2.success = true ∧
    (createInvoiceAction demoStore 1 "2024-01-01" []).1.invoices.length = 1 := by
  rw [createInvoiceAction_ok demoStore 1 "2024-01-01" [] (by decide)
    (fun item h => absurd h (List.not_mem_nil item))]
  exact ⟨by decide, rfl, rfl⟩

/-- C6 (amended): the only server-side validation of the submitted items is
`z.string().min(1)` on the raw `itemsJSON` string (so `"[]"` passes), and
the action itself accepts any deserialised item list whose product
references exist: an empty list yields an invoice header with no line
items, and items with non-positive quantities are persisted as given. -/
theorem createInvoice_no_item_validation (s : Store) (customerId : Nat)
    (createdAt : String) (items : List InvoiceItem)
    (hc : s.customers.any (fun c => c.id == customerId) = true)
    (hitems : ∀ item ∈ items, s.products.any (fun p => p.id == item.id) = true) :
    itemsJSONValid "[]" = true ∧
    (createInvoiceAction s customerId createdAt items).2.success = true ∧
    (createInvoiceAction s customerId createdAt items).1.invoices.length
      = s.invoices.length + 1 ∧
    (createInvoiceAction s customerId createdAt items).1.invoiceItems
      = s.invoiceItems ++ items.map (itemRowOf s.nextInvoiceId) := by
  rw [createInvoiceAction_ok s customerId createdAt items hc hitems]
  refine ⟨rfl, rfl, ?_, rfl⟩
  simp [committedStore]

theorem createInvoice_no_item_validation_witness :
    itemsJSONValid "[]" = true ∧
    (createInvoiceAction demoStore 1 "2024" [{ demoItem with quantity := 0 }]).2.success = true ∧
    (createInvoiceAction demoStore 1 "2024" [{ demoItem with quantity := 0 }]).1.invoices.length
      = demoStore.invoices.length + 1 ∧
    (createInvoiceAction demoStore 1 "2024" [{ demoItem with quantity := 0 }]).1.invoiceItems
      = demoStore.invoiceItems
        ++ [{ demoItem with quantity := 0 }].map (itemRowOf demoStore.nextInvoiceId) :=
  createInvoice_no_item_validation demoStore 1 "2024" [{ demoItem with quantity := 0 }]
    (by decide) (by decide)

/-! ## C7: duplicate phone fails safely, but the fault is not caught -/

/-- C7 counterexample: with a customer with phone "555" already stored,
adding another customer with phone "555" leaves the outcome of
`useAddCustomerAction` equal to the uncaught storage fault itself — the
handler (index.tsx lines 42-44) has no try/catch, so the uniqueness
violation is not converted into a structured success-flag result, refuting
the propagation-policy part of the claim (the table is indeed unchanged). -/
theorem addCustomer_duplicate_uncaught_cex :
    (addCustomerAction demoStore "Bob" "555" none none).2
        = .uncaughtFault .uniqueViolation ∧
    (addCustomerAction demoStore "Bob" "555" none none).1.customers.length = 1 := by
  decide

/-- C7 (amended): adding a customer whose phone is already in use fails,
leaves the customer table (indeed the whole store) unchanged, and surfaces
as the distinct uniqueness-violation kind; but `useAddCustomerAction` has
no try/catch, so the failure escapes the handler as an uncaught fault
instead of being converted into a structured result (only
`useCreateInvoiceAction` converts failures into a `{success, error}`
value). -/
theorem addCustomer_duplicate_phone (s : Store) (name phone : String)
    (email address : Option String)
    (hdup : s.customers.any (fun c => c.phone == phone) = true) :
    addCustomerAction s name phone email address = (s, .uncaughtFault .uniqueViolation) := by
  simp [addCustomerAction, insertCustomer, hdup]

theorem addCustomer_duplicate_phone_witness :
    addCustomerAction demoStore "Bob" "555" none none
      = (demoStore, .uncaughtFault .uniqueViolation) :=
  addCustomer_duplicate_phone demoStore "Bob" "555" none none (by decide)

/-! ## C8: the result carries no invoice identity and no cause -/

/-- C8 counterexample: two successful runs that create invoices with
different identities (ids 1 and 7) return byte-for-byte identical results,
so the success result cannot carry the new invoice's identity; and two runs
failing for different causes (missing customer vs missing product) also
return identical results, so the failure result does not carry the
underlying cause. -/
theorem createInvoice_result_lacks_identity_cex :
    (createInvoiceAction demoStore 1 "2024" [demoItem]).2
        = (createInvoiceAction demoStoreShift 1 "2024" [demoItem]).2 ∧
    (createInvoiceAction demoStore 1 "2024" [demoItem]).2.success = true ∧
    (createInvoiceAction demoStore 1 "2024" [demoItem]).1.invoices.map (fun i => i.id)
        = [1] ∧
    (createInvoiceAction demoStoreShift 1 "2024" [demoItem]).1.invoices.map (fun i => i.id)
        = [7] ∧
    (createInvoiceAction demoStore 2 "2024" [demoItem]).2
        = (createInvoiceAction demoStore 1 "2024" [{ demoItem with id := 99 }]).2 ∧
    (createInvoiceAction demoStore 2 "2024" [demoItem]).2.success = false := by
  decide

/-- C8 (amended): the create-invoice result is `{ success: true }` on
success — carrying no invoice identity — and on failure it is always
`{ success: false, error: "Failed to save invoice." }`, a fixed generic
message; the underlying cause is only logged server-side, never attached to
the result. -/
theorem createInvoice_result_shape (s : Store) (customerId : Nat) (createdAt : String)
    (items : List InvoiceItem) :
    (createInvoiceAction s customerId createdAt items).2
        = { success := true, error := none } ∨
    (createInvoiceAction s customerId createdAt items).2
        = { success := false, error := some "Failed to save invoice." } := by
  rcases createInvoiceAction_cases s customerId createdAt items with h | h <;> rw [h]
  · exact .inr rfl
  · exact .inl rfl

/-- Witness for the invariant theorem: the hypotheses hold of `demoStore`
and are discharged there. -/
theorem totals_invariant_preserved_witness :
    StoreWF (applyOp demoStore (Op.createInvoice 1 "2024-01-02" [demoItem])) ∧
    TotalsInvariant (applyOp demoStore (Op.createInvoice 1 "2024-01-02" [demoItem])) :=
  totals_invariant_preserved demoStore (Op.createInvoice 1 "2024-01-02" [demoItem])
    ⟨fun inv h => absurd h (List.not_mem_nil inv),
     fun row h => absurd h (List.not_mem_nil row)⟩
    (fun inv h => absurd h (List.not_mem_nil inv))

/-! ## Queries (index.tsx loaders) -/

/-- Models `SELECT * FROM customers ORDER BY name` (`useCustomersLoader`,
index.tsx line 19). SQLite's default BINARY collation on TEXT is modelled
by the lexicographic order on `String`; `ORDER BY` is modelled by a sort. -/
def customersQuery (s : Store) : List CustomerRow :=
  s.customers.insertionSort (fun a b => a.name ≤ b.name)

/-- Models `SELECT * FROM products ORDER BY name` (`useProductsLoader`,
index.tsx line 20). -/
def productsQuery (s : Store) : List ProductRow :=
  s.products.insertionSort (fun a b => a.name ≤ b.name)

/-- A row of the invoice-list query: the invoice joined with its customer's
name (`c.name as customerName`). -/
structure InvoiceListRow where
  id : Nat
  customerId : Nat
  createdAt : String
  totalAmount : Rat
  customerName : String
deriving Repr, DecidableEq

/-- The inner join `FROM invoices i JOIN customers c ON i.customerId = c.id`
of `useInvoicesLoader` (index.tsx lines 23-27): one row per matching
invoice/customer pair. -/
def invoicesJoin (s : Store) : List InvoiceListRow :=
  s.invoices.flatMap (fun i =>
    (s.customers.filter (fun c => c.id == i.customerId)).map (fun c =>
      { id := i.id, customerId := i.customerId, createdAt := i.createdAt,
        totalAmount := i.totalAmount, customerName := c.name }))

/-- Models the full invoice-list query: the join ordered by
`i.createdAt DESC` (descending ISO-8601 text order). -/
def invoicesQuery (s : Store) : List InvoiceListRow :=
  (invoicesJoin s).insertionSort (fun a b => b.createdAt ≤ a.createdAt)

/-- C9: the list-customers and list-products queries return rows ordered
ascending by name; the list-invoices query returns rows ordered by creation
time descending, and every returned row is an invoice joined with the name
of its customer (the customer row whose id is the invoice's customerId). -/
theorem queries_ordered (s : Store) :
    List.Sorted (fun a b : CustomerRow => a.name ≤ b.name) (customersQuery s) ∧
    List.Sorted (fun a b : ProductRow => a.name ≤ b.name) (productsQuery s) ∧
    List.Sorted (fun a b : InvoiceListRow => b.createdAt ≤ a.createdAt) (invoicesQuery s) ∧
    ∀ row ∈ invoicesQuery s, ∃ i ∈ s.invoices, ∃ c ∈ s.customers,
      c.id = i.customerId ∧
      row = { id := i.id, customerId := i.customerId, createdAt := i.createdAt,
              totalAmount := i.totalAmount, customerName := c.name } := by
  refine ⟨?_, ?_, ?_, ?_⟩
  · haveI : IsTotal CustomerRow (fun a b => a.name ≤ b.name) :=
      ⟨fun a b => le_total a.name b.name⟩
    haveI : IsTrans CustomerRow (fun a b => a.name ≤ b.name) :=
      ⟨fun _ _ _ h h' => le_trans h h'⟩
    exact List.sorted_insertionSort _ _
  · haveI : IsTotal ProductRow (fun a b => a.name ≤ b.name) :=
      ⟨fun a b => le_total a.name b.name⟩
    haveI : IsTrans ProductRow (fun a b => a.name ≤ b.name) :=
      ⟨fun _ _ _ h h' => le_trans h h'⟩
    exact List.sorted_insertionSort _ _
  · haveI : IsTotal InvoiceListRow (fun a b => b.createdAt ≤ a.createdAt) :=
      ⟨fun a b => le_total b.createdAt a.createdAt⟩
    haveI : IsTrans InvoiceListRow (fun a b => b.createdAt ≤ a.createdAt) :=
      ⟨fun _ _ _ h h' => le_trans h' h⟩
    exact List.sorted_insertionSort _ _
  · intro row hrow
    have hmem : row ∈ invoicesJoin s :=
      (List.perm_insertionSort (fun a b : InvoiceListRow => b.createdAt ≤ a.createdAt)
        (invoicesJoin s)).mem_iff.1 hrow
    simp only [invoicesJoin, List.mem_flatMap] at hmem
    obtain ⟨i, hi, hrow2⟩ := hmem
    obtain ⟨c, hc, rfl⟩ := List.mem_map.1 hrow2
    have hcid : c.id = i.customerId := by
      have := List.of_mem_filter hc
      simpa using this
    exact ⟨i, hi, c, List.mem_of_mem_filter hc, hcid, rfl⟩

/-! ## The per-invoice item history query (C10) -/

/-- A row of the per-invoice items query of `useInvoicesLoader` (index.tsx
lines 29-33): the current product's name/description joined with the
stored quantity and the price/tax snapshots. -/
structure HistoryItemRow where
  name : String
  descr : Option String
  quantity : Int
  price : Rat
  tax : Rat
deriving Repr, DecidableEq

/-- The rows the join `invoice_items ii JOIN products p ON ii.productId =
p.id` yields for one invoice_items row: one output row per product row with
a matching id, carrying the product's current name/description and the
item's snapshots. -/
def historyRowsFor (ps : List ProductRow) (row : InvoiceItemRow) : List HistoryItemRow :=
  (ps.filter (fun p => p.id == row.productId)).map (fun p =>
    { name := p.name, descr := p.descr, quantity := row.quantity,
      price := row.priceAtSale, tax := row.taxAtSale })

/-- Models `SELECT p.name, p.description, ii.quantity, ii.priceAtSale as
price, ii.taxAtSale as tax FROM invoice_items ii JOIN products p ON
ii.productId = p.id WHERE ii.invoiceId = ?` (index.tsx lines 29-33). -/
def invoiceItemsQuery (s : Store) (invoiceId : Nat) : List HistoryItemRow :=
  (s.invoiceItems.filter (fun row => row.invoiceId == invoiceId)).flatMap
    (historyRowsFor s.products)

theorem historyRowsFor_congr (ps ps' : List ProductRow)
    (h : ps.map (fun p => (p.id, p.name, p.descr))
        = ps'.map (fun p => (p.id, p.name, p.descr))) (row : InvoiceItemRow) :
    historyRowsFor ps row = historyRowsFor ps' row := by
  induction ps generalizing ps' with
  | nil =>
    cases ps' with
    | nil => rfl
    | cons p' rest' => simp at h
  | cons p rest ih =>
    cases ps' with
    | nil => simp at h
    | cons p' rest' =>
      simp only [List.map_cons, List.cons.injEq, Prod.mk.injEq] at h
      obtain ⟨⟨hid, hname, hdescr⟩, hrest⟩ := h
      simp only [historyRowsFor, List.filter_cons, hid]
      by_cases hcond : (p'.id == row.productId) = true
      · have hr := ih rest' hrest
        simp only [historyRowsFor] at hr
        simp [hcond, hname, hdescr, hr]
      · have hr := ih rest' hrest
        simp only [historyRowsFor] at hr
        simp [hcond, hr]

theorem historyRowsFor_dangling (ps : List ProductRow) (row : InvoiceItemRow)
    (h : ps.any (fun p => p.id == row.productId) = false) :
    historyRowsFor ps row = [] := by
  rw [historyRowsFor]
  have hnil : ps.filter (fun p => p.id == row.productId) = [] := by
    refine List.filter_eq_nil_iff.2 fun p hp hpe => ?_
    have htrue : ps.any (fun p => p.id == row.productId) = true :=
      List.any_eq_true.2 ⟨p, hp, hpe⟩
    rw [h] at htrue
    exact Bool.false_ne_true htrue
  rw [hnil]
  rfl

/-- C10: in the invoice-history query each output row takes its price and
tax from the stored priceAtSale/taxAtSale snapshots and its name and
description live from the current matching products row; consequently the
query's output is unchanged under any change to product prices/taxes (rows
agreeing on id, name, description), and an invoice_items row whose product
is absent is silently omitted (dropping all such rows changes nothing). -/
theorem invoice_history_items (s : Store) (invoiceId : Nat) :
    (∀ row ∈ invoiceItemsQuery s invoiceId, ∃ ii ∈ s.invoiceItems,
        ii.invoiceId = invoiceId ∧ ∃ p ∈ s.products, p.id = ii.productId ∧
        row = { name := p.name, descr := p.descr, quantity := ii.quantity,
                price := ii.priceAtSale, tax := ii.taxAtSale }) ∧
    (∀ s' : Store, s'.invoiceItems = s.invoiceItems →
        s'.products.map (fun p => (p.id, p.name, p.descr))
          = s.products.map (fun p => (p.id, p.name, p.descr)) →
        invoiceItemsQuery s' invoiceId = invoiceItemsQuery s invoiceId) ∧
    invoiceItemsQuery s invoiceId
      = invoiceItemsQuery
          { s with invoiceItems :=
              (s.invoiceItems.filter (fun row => s.products.any (fun p => p.id == row.productId))) }
          invoiceId := by
  refine ⟨?_, ?_, ?_⟩
  · intro row hrow
    simp only [invoiceItemsQuery, List.mem_flatMap] at hrow
    obtain ⟨ii, hii, hrow2⟩ := hrow
    simp only [historyRowsFor] at hrow2
    obtain ⟨p, hp, rfl⟩ := List.mem_map.1 hrow2
    have hiid : ii.invoiceId = invoiceId := by
      have := List.of_mem_filter hii
      simpa using this
    have hpid : p.id = ii.productId := by
      have := List.of_mem_filter hp
      simpa using this
    exact ⟨ii, List.mem_of_mem_filter hii, hiid, p, List.mem_of_mem_filter hp, hpid, rfl⟩
  · intro s' hitems hprods
    have hfun : historyRowsFor s'.products = historyRowsFor s.products :=
      funext (historyRowsFor_congr s'.products s.products hprods)
    rw [invoiceItemsQuery, invoiceItemsQuery, hitems, hfun]
  · show _ = (List.filter _ (List.filter _ s.invoiceItems)).flatMap (historyRowsFor s.products)
    rw [invoiceItemsQuery]
    generalize s.invoiceItems = rows
    induction rows with
    | nil => rfl
    | cons row rest ih =>
      by_cases hdang : s.products.any (fun p => p.id == row.productId) = true <;>
        by_cases hid : (row.invoiceId == invoiceId) = true
      · simp [List.filter_cons, hdang, hid, ih]
      · simp [List.filter_cons, hdang, hid, ih]
      · have hnil := historyRowsFor_dangling s.products row (by simpa using hdang)
        simp [List.filter_cons, hdang, hid, hnil, ih]
      · simp [List.filter_cons, hdang, hid, ih]

end Invoicing
